import Mathlib

/-!
# Verification of the opencode-canvas editor core

Shallow embedding of the modal text-editor core of the repository
(`src/canvases/editor/*.ts` and `editor-state.ts`), translated function by
function from the TypeScript source.  JavaScript strings are modelled as
`List Char`, JavaScript numbers used as indices as `Int` (they can go
negative in the source, e.g. `prevLine.length - 1` on an empty line), and
the JavaScript array/string primitives (`slice`, `splice`, indexed access,
indexed assignment) are modelled by helpers reproducing their clamping and
negative-index semantics.
-/

/-! ## JavaScript primitive helpers -/

/-- JavaScript indexed read `l[i]`: `none` (undefined) when out of range. -/
def jsGet {α : Type} (l : List α) (i : Int) : Option α :=
  if i < 0 then none else l.get? i.toNat

/-- JavaScript `lines[i] ?? ""`. -/
def jsGetD (l : List (List Char)) (i : Int) : List Char :=
  (jsGet l i).getD []

/-- JavaScript `s[i] ?? ""` on a string: the result is the one-character
string, or the empty string when out of range; we keep it as `Option Char`
(`none` plays the role of `""`, which no character-class predicate accepts,
exactly as in the source where `/x/.test("")` is false). -/
def jsCharAt (s : List Char) (i : Int) : Option Char :=
  if i < 0 then none else s.get? i.toNat

/-- Normalisation of a (possibly negative) JavaScript `slice`/`splice`
index against a length `n`: negative indices count from the end, and the
result is clamped into `[0, n]`. -/
def jsNormIdx (n : Nat) (i : Int) : Nat :=
  if i < 0 then (i + n).toNat else min i.toNat n

/-- JavaScript `s.slice(a, b)` on a string. -/
def jsSlice (s : List Char) (a b : Int) : List Char :=
  (s.take (jsNormIdx s.length b)).drop (jsNormIdx s.length a)

/-- JavaScript `s.slice(a)` on a string. -/
def jsSliceFrom (s : List Char) (a : Int) : List Char :=
  jsSlice s a s.length

/-- JavaScript `l.splice(start, deleteCount, ...items)` (the resulting
array; all call sites in the source use the result, not the removed part). -/
def jsSplice (l : List (List Char)) (start : Int) (deleteCount : Nat)
    (items : List (List Char)) : List (List Char) :=
  let s := jsNormIdx l.length start
  l.take s ++ items ++ l.drop (s + deleteCount)

/-- JavaScript indexed assignment `l[i] = x` on an array of strings.
A negative index becomes an ordinary property, leaving the array elements
untouched; an index at or past the length extends the array, the holes
reading back as `undefined` which every use site (`?? ""`, `join`) treats
as the empty string. -/
def jsSet (l : List (List Char)) (i : Int) (x : List Char) : List (List Char) :=
  if i < 0 then l
  else if i.toNat < l.length then l.set i.toNat x
  else l ++ List.replicate (i.toNat - l.length) [] ++ [x]

/-- JavaScript `s.includes(sub)`. -/
def jsIncludes (s sub : List Char) : Bool :=
  decide (sub <:+: s)

/-- The whitespace class of JavaScript's `\s` (and of `String.trim`),
restricted to the code points the editor can ever see plus the common
Unicode spaces. -/
def isJsWhitespaceChar (c : Char) : Bool :=
  c = ' ' ∨ c = '\t' ∨ c = '\n' ∨ c = '\r' ∨ c = '\x0b' ∨ c = '\x0c' ∨
  c = ' ' ∨ c = ' ' ∨ c = ' ' ∨ c = ' ' ∨
  c = ' ' ∨ c = ' ' ∨ c = '　' ∨ c = '﻿' ∨
  (0x2000 ≤ c.toNat ∧ c.toNat ≤ 0x200a)

/-- JavaScript `s.trim()`. -/
def jsTrim (s : List Char) : List Char :=
  ((s.dropWhile isJsWhitespaceChar).reverse.dropWhile isJsWhitespaceChar).reverse

/-! ## `editor-state.ts` -/

inductive EditorMode
  | normal
  | insert
deriving DecidableEq, Repr

inductive ReadOnlyReason
  | node_modules
  | git_directory
  | binary_file
  | file_too_large
deriving DecidableEq, Repr

structure EditorState where
  mode : EditorMode
  lines : List (List Char)
  cursorLine : Int
  cursorCol : Int
  isDirty : Bool
  dirtyLines : List Int
  filePath : Option (List Char)
  isReadOnly : Bool
  isReadOnlyReason : Option ReadOnlyReason
deriving DecidableEq, Repr

/-- JavaScript `Set.add` on the dirty-line set, keeping insertion order. -/
def addDirty (d : List Int) (i : Int) : List Int :=
  if i ∈ d then d else d ++ [i]

structure CreateEditorStateOptions where
  content : Option (List Char) := none
  filePath : Option (List Char) := none
  isReadOnly : Option Bool := none
  isReadOnlyReason : Option (Option ReadOnlyReason) := none
deriving Repr

/-- `content.split("\n")`: JavaScript `split` on a one-character separator;
it never returns an empty array (splitting the empty string gives `[""]`). -/
def splitNl : List Char → List (List Char)
  | [] => [[]]
  | c :: cs =>
    let r := splitNl cs
    if c = '\n' then [] :: r
    else
      match r with
      | [] => [[c]]
      | h :: t => (c :: h) :: t

/-- `lines.join("\n")`. -/
def joinNl : List (List Char) → List Char
  | [] => []
  | [x] => x
  | x :: xs => x ++ '\n' :: joinNl xs

def createEditorState (options : CreateEditorStateOptions) : EditorState :=
  let content := options.content.getD []
  let lines := splitNl content
  let lines := if lines.length = 0 then lines ++ [[]] else lines
  { mode := .normal
    lines := lines
    cursorLine := 0
    cursorCol := 0
    isDirty := false
    dirtyLines := []
    filePath := options.filePath
    isReadOnly := options.isReadOnly.getD false
    isReadOnlyReason := (options.isReadOnlyReason).getD none }

def getEditorContent (state : EditorState) : List Char :=
  joinNl state.lines

def getCurrentLine (state : EditorState) : List Char :=
  jsGetD state.lines state.cursorLine

/-! ## `editor-command.ts` -/

inductive ParsedCommand
  | save
  | quit
  | save_quit
  | force_quit
  | unknown (command : List Char)
deriving DecidableEq, Repr

def parseCommand (command : List Char) : ParsedCommand :=
  let trimmed := jsTrim command
  if trimmed = ":w".toList then .save
  else if trimmed = ":q".toList then .quit
  else if trimmed = ":wq".toList ∨ trimmed = ":x".toList then .save_quit
  else if trimmed = ":q!".toList then .force_quit
  else .unknown trimmed

/-! ## `editor-insert.ts` -/

def enterInsertMode (state : EditorState) : EditorState :=
  if state.isReadOnly then state
  else { state with mode := .insert }

def enterInsertModeAfter (state : EditorState) : EditorState :=
  if state.isReadOnly then state
  else
    let line := getCurrentLine state
    { state with mode := .insert, cursorCol := min (state.cursorCol + 1) (line.length : Int) }

def exitInsertMode (state : EditorState) : EditorState :=
  let line := getCurrentLine state
  let maxCol : Int := max 0 ((line.length : Int) - 1)
  { state with mode := .normal, cursorCol := min state.cursorCol maxCol }

def insertChar (state : EditorState) (char : List Char) : EditorState :=
  if state.isReadOnly ∨ state.mode ≠ .insert then state
  else
    let line := getCurrentLine state
    let before := jsSlice line 0 state.cursorCol
    let after := jsSliceFrom line state.cursorCol
    let newLine := before ++ char ++ after
    let newLines := jsSet state.lines state.cursorLine newLine
    let newDirtyLines := addDirty state.dirtyLines state.cursorLine
    { state with
        lines := newLines
        cursorCol := state.cursorCol + (char.length : Int)
        isDirty := true
        dirtyLines := newDirtyLines }

def deleteCharBefore (state : EditorState) : EditorState :=
  if state.isReadOnly ∨ state.mode ≠ .insert then state
  else
    let line := getCurrentLine state
    if state.cursorCol = 0 then
      if state.cursorLine = 0 then state
      else
        let prevLine := jsGetD state.lines (state.cursorLine - 1)
        let newCursorCol : Int := prevLine.length
        let joinedLine := prevLine ++ line
        let newLines := jsSplice state.lines (state.cursorLine - 1) 2 [joinedLine]
        let newDirtyLines := addDirty state.dirtyLines (state.cursorLine - 1)
        { state with
            lines := newLines
            cursorLine := state.cursorLine - 1
            cursorCol := newCursorCol
            isDirty := true
            dirtyLines := newDirtyLines }
    else
      let before := jsSlice line 0 (state.cursorCol - 1)
      let after := jsSliceFrom line state.cursorCol
      let newLine := before ++ after
      let newLines := jsSet state.lines state.cursorLine newLine
      let newDirtyLines := addDirty state.dirtyLines state.cursorLine
      { state with
          lines := newLines
          cursorCol := state.cursorCol - 1
          isDirty := true
          dirtyLines := newDirtyLines }

def insertNewLine (state : EditorState) : EditorState :=
  if state.isReadOnly ∨ state.mode ≠ .insert then state
  else
    let line := getCurrentLine state
    let before := jsSlice line 0 state.cursorCol
    let after := jsSliceFrom line state.cursorCol
    let newLines := jsSplice state.lines state.cursorLine 1 [before, after]
    let newDirtyLines := addDirty (addDirty state.dirtyLines state.cursorLine) (state.cursorLine + 1)
    { state with
        lines := newLines
        cursorLine := state.cursorLine + 1
        cursorCol := 0
        isDirty := true
        dirtyLines := newDirtyLines }

def openLineBelow (state : EditorState) : EditorState :=
  if state.isReadOnly then state
  else
    let newLines := jsSplice state.lines (state.cursorLine + 1) 0 [[]]
    let newDirtyLines := addDirty state.dirtyLines (state.cursorLine + 1)
    { state with
        lines := newLines
        cursorLine := state.cursorLine + 1
        cursorCol := 0
        mode := .insert
        isDirty := true
        dirtyLines := newDirtyLines }

def openLineAbove (state : EditorState) : EditorState :=
  if state.isReadOnly then state
  else
    let newLines := jsSplice state.lines state.cursorLine 0 [[]]
    let newDirtyLines := addDirty state.dirtyLines state.cursorLine
    { state with
        lines := newLines
        cursorCol := 0
        mode := .insert
        isDirty := true
        dirtyLines := newDirtyLines }

def enterInsertModeAtEnd (state : EditorState) : EditorState :=
  if state.isReadOnly then state
  else
    let line := getCurrentLine state
    { state with mode := .insert, cursorCol := (line.length : Int) }

def enterInsertModeAtStart (state : EditorState) : EditorState :=
  if state.isReadOnly then state
  else { state with mode := .insert, cursorCol := 0 }

def deleteCharUnderCursor (state : EditorState) : EditorState :=
  if state.isReadOnly ∨ state.mode ≠ .normal then state
  else
    let line := getCurrentLine state
    if line.length = 0 then state
    else if state.cursorCol ≥ (line.length : Int) then state
    else
      let before := jsSlice line 0 state.cursorCol
      let after := jsSliceFrom line (state.cursorCol + 1)
      let newLine := before ++ after
      let newLines := jsSet state.lines state.cursorLine newLine
      let newCursorCol : Int :=
        if newLine.length = 0 then 0 else min state.cursorCol ((newLine.length : Int) - 1)
      let newDirtyLines := addDirty state.dirtyLines state.cursorLine
      { state with
          lines := newLines
          cursorCol := newCursorCol
          isDirty := true
          dirtyLines := newDirtyLines }

/-! ## `editor-navigation.ts` -/

def isWordChar (c : Char) : Bool :=
  ('a' ≤ c ∧ c ≤ 'z') ∨ ('A' ≤ c ∧ c ≤ 'Z') ∨ ('0' ≤ c ∧ c ≤ '9') ∨ c = '_'

/-- `isWordChar(line[col] ?? "")`: the out-of-range read gives `""`, which
the regex test rejects. -/
def isWordCharO : Option Char → Bool
  | none => false
  | some c => isWordChar c

def isWhitespaceO : Option Char → Bool
  | none => false
  | some c => isJsWhitespaceChar c

def isPunctuationO (c : Option Char) : Bool :=
  ¬ isWordCharO c ∧ ¬ isWhitespaceO c

def moveLeft (state : EditorState) : EditorState :=
  { state with cursorCol := max 0 (state.cursorCol - 1) }

def getMaxColOf (lineContent : List Char) (mode : EditorMode) : Int :=
  if mode = .insert then (lineContent.length : Int) else max 0 ((lineContent.length : Int) - 1)

def moveRight (state : EditorState) : EditorState :=
  let line := getCurrentLine state
  let maxCol := getMaxColOf line state.mode
  { state with cursorCol := min (state.cursorCol + 1) maxCol }

def moveDown (state : EditorState) : EditorState :=
  let newLine := min (state.cursorLine + 1) ((state.lines.length : Int) - 1)
  let newLineContent := jsGetD state.lines newLine
  let maxCol := getMaxColOf newLineContent state.mode
  { state with cursorLine := newLine, cursorCol := min state.cursorCol maxCol }

def moveUp (state : EditorState) : EditorState :=
  let newLine := max 0 (state.cursorLine - 1)
  let newLineContent := jsGetD state.lines newLine
  let maxCol := getMaxColOf newLineContent state.mode
  { state with cursorLine := newLine, cursorCol := min state.cursorCol maxCol }

def moveToLineStart (state : EditorState) : EditorState :=
  { state with cursorCol := 0 }

def moveToLineEnd (state : EditorState) : EditorState :=
  let line := getCurrentLine state
  { state with cursorCol := getMaxColOf line state.mode }

def moveToFirstLine (state : EditorState) : EditorState :=
  { state with cursorLine := 0, cursorCol := 0 }

def moveToLastLine (state : EditorState) : EditorState :=
  { state with cursorLine := (state.lines.length : Int) - 1, cursorCol := 0 }

/-- Structural worker for `scanForward`; the fuel argument is exactly the
loop's termination measure, so the loop is never cut short. -/
def scanForwardAux (lineContent : List Char) (p : Option Char → Bool) :
    Nat → Int → Int
  | 0, col => col
  | fuel + 1, col =>
    if col < (lineContent.length : Int) ∧ p (jsCharAt lineContent col) then
      scanForwardAux lineContent p fuel (col + 1)
    else col

/-- The shape of the source's forward `while` loops:
`while (col < lineContent.length && p(lineContent[col] ?? "")) col++`.
When the fuel `(length - col).toNat` is `0` we have `col ≥ length`, so the
loop guard is false and returning `col` agrees with the loop. -/
def scanForward (lineContent : List Char) (p : Option Char → Bool) (col : Int) : Int :=
  scanForwardAux lineContent p (((lineContent.length : Int) - col).toNat) col

/-- Structural worker for `scanBackAt`. -/
def scanBackAtAux (lineContent : List Char) (p : Option Char → Bool) :
    Nat → Int → Int
  | 0, col => col
  | fuel + 1, col =>
    if col > 0 ∧ p (jsCharAt lineContent col) then
      scanBackAtAux lineContent p fuel (col - 1)
    else col

/-- The shape of the backward loops testing the character at `col`:
`while (col > 0 && p(lineContent[col] ?? "")) col--`.  When the fuel
`col.toNat` is `0` we have `col ≤ 0`, so the loop guard is false. -/
def scanBackAt (lineContent : List Char) (p : Option Char → Bool) (col : Int) : Int :=
  scanBackAtAux lineContent p col.toNat col

/-- Structural worker for `scanBackPrev`. -/
def scanBackPrevAux (lineContent : List Char) (p : Option Char → Bool) :
    Nat → Int → Int
  | 0, col => col
  | fuel + 1, col =>
    if col > 0 ∧ p (jsCharAt lineContent (col - 1)) then
      scanBackPrevAux lineContent p fuel (col - 1)
    else col

/-- The shape of the backward loops testing the character at `col - 1`:
`while (col > 0 && p(lineContent[col - 1] ?? "")) col--`. -/
def scanBackPrev (lineContent : List Char) (p : Option Char → Bool) (col : Int) : Int :=
  scanBackPrevAux lineContent p col.toNat col

def skipWhitespaceForward (lineContent : List Char) (startCol : Int) : Int :=
  scanForward lineContent isWhitespaceO startCol

def skipWhitespaceBackward (lineContent : List Char) (startCol : Int) : Int :=
  scanBackAt lineContent isWhitespaceO startCol

def skipCurrentTokenForward (lineContent : List Char) (startCol : Int) : Int :=
  let char := jsCharAt lineContent startCol
  if isWordCharO char then scanForward lineContent isWordCharO startCol
  else if isWhitespaceO char then scanForward lineContent isWhitespaceO startCol
  else scanForward lineContent isPunctuationO startCol

def findTokenStartBackward (lineContent : List Char) (startCol : Int) : Int :=
  let char := jsCharAt lineContent startCol
  if isWordCharO char then scanBackPrev lineContent isWordCharO startCol
  else if isPunctuationO char then scanBackPrev lineContent isPunctuationO startCol
  else startCol

def moveToNextWord (state : EditorState) : EditorState :=
  let line := state.cursorLine
  let col := state.cursorCol
  let currentLine := jsGetD state.lines line
  let atOrPastLineEnd := col ≥ (currentLine.length : Int) - 1
  let canMoveToNextLine := line < (state.lines.length : Int) - 1
  if atOrPastLineEnd then
    if canMoveToNextLine then
      let line := line + 1
      let newLine := jsGetD state.lines line
      let col := skipWhitespaceForward newLine 0
      { state with cursorLine := line, cursorCol := min col (getMaxColOf newLine state.mode) }
    else { state with cursorCol := getMaxColOf currentLine state.mode }
  else
    let col := skipCurrentTokenForward currentLine col
    let col := skipWhitespaceForward currentLine col
    if col ≥ (currentLine.length : Int) ∧ canMoveToNextLine then
      let line := line + 1
      let newLine := jsGetD state.lines line
      let col := skipWhitespaceForward newLine 0
      { state with cursorLine := line, cursorCol := min col (getMaxColOf newLine state.mode) }
    else
      let finalLine := jsGetD state.lines line
      { state with cursorLine := line, cursorCol := min col (getMaxColOf finalLine state.mode) }

def moveToPreviousWord (state : EditorState) : EditorState :=
  let line := state.cursorLine
  let col := state.cursorCol
  if col = 0 ∧ ¬ (line > 0) then { state with cursorCol := 0 }
  else
    let line := if col = 0 then line - 1 else line
    let col := if state.cursorCol = 0 then ((jsGetD state.lines line).length : Int) else col
    let currentLine := jsGetD state.lines line
    let col := if col > 0 then col - 1 else col
    let col := skipWhitespaceBackward currentLine col
    let atLineStartWithWhitespace :=
      col = 0 ∧ isWhitespaceO (jsCharAt currentLine col) ∧ line > 0
    if atLineStartWithWhitespace then
      let line := line - 1
      let prevLine := jsGetD state.lines line
      let col := skipWhitespaceBackward prevLine ((prevLine.length : Int) - 1)
      let col := findTokenStartBackward prevLine col
      { state with cursorLine := line, cursorCol := col }
    else
      let col := findTokenStartBackward currentLine col
      { state with cursorLine := line, cursorCol := col }

/-! ## `editor-clipboard.ts` -/

/-- The clipboard payload tag; the source's union has the single literal
`"line"`. -/
inductive ClipKind
  | line
deriving DecidableEq, Repr

structure ClipboardContent where
  type : ClipKind
  lines : List (List Char)
deriving DecidableEq, Repr

structure ClipboardState where
  content : Option ClipboardContent
deriving DecidableEq, Repr

def createClipboardState : ClipboardState :=
  { content := none }

def yankLine (editorState : EditorState) (_clipboardState : ClipboardState) : ClipboardState :=
  let line := jsGetD editorState.lines editorState.cursorLine
  { content := some { type := .line, lines := [line] } }

def deleteLine (editorState : EditorState) (clipboardState : ClipboardState) :
    EditorState × ClipboardState :=
  if editorState.isReadOnly then (editorState, clipboardState)
  else
    let line := jsGetD editorState.lines editorState.cursorLine
    let newClipboardState : ClipboardState :=
      { content := some { type := .line, lines := [line] } }
    let newLines := jsSplice editorState.lines editorState.cursorLine 1 []
    let newLines := if newLines.length = 0 then newLines ++ [[]] else newLines
    let newCursorLine := min editorState.cursorLine ((newLines.length : Int) - 1)
    let newLine := jsGetD newLines newCursorLine
    let newCursorCol := min editorState.cursorCol (max 0 ((newLine.length : Int) - 1))
    let newDirtyLines := addDirty editorState.dirtyLines newCursorLine
    ({ editorState with
        lines := newLines
        cursorLine := newCursorLine
        cursorCol := newCursorCol
        isDirty := true
        dirtyLines := newDirtyLines },
     newClipboardState)

/-- The dirty-line marking loop of `pasteAfter`/`pasteBefore`. -/
def addDirtyRange (d : List Int) (insertIndex : Int) : Nat → List Int
  | 0 => d
  | n + 1 => addDirty (addDirtyRange d insertIndex n) (insertIndex + n)

def pasteAfter (editorState : EditorState) (clipboardState : ClipboardState) : EditorState :=
  if editorState.isReadOnly then editorState
  else
    match clipboardState.content with
    | none => editorState
    | some content =>
      if content.type ≠ .line then editorState
      else
        let insertIndex := editorState.cursorLine + 1
        let newLines := jsSplice editorState.lines insertIndex 0 content.lines
        let newDirtyLines := addDirtyRange editorState.dirtyLines insertIndex content.lines.length
        { editorState with
            lines := newLines
            cursorLine := insertIndex
            cursorCol := 0
            isDirty := true
            dirtyLines := newDirtyLines }

def pasteBefore (editorState : EditorState) (clipboardState : ClipboardState) : EditorState :=
  if editorState.isReadOnly then editorState
  else
    match clipboardState.content with
    | none => editorState
    | some content =>
      if content.type ≠ .line then editorState
      else
        let insertIndex := editorState.cursorLine
        let newLines := jsSplice editorState.lines insertIndex 0 content.lines
        let newDirtyLines := addDirtyRange editorState.dirtyLines insertIndex content.lines.length
        { editorState with
            lines := newLines
            cursorLine := insertIndex
            cursorCol := 0
            isDirty := true
            dirtyLines := newDirtyLines }

/-! ## `editor-undo.ts` -/

def MAX_UNDO_STACK_SIZE : Nat := 100

inductive UndoOpType
  | insert_char
  | delete_char
  | insert_line
  | delete_line
  | join_lines
  | split_line
deriving DecidableEq, Repr

structure UndoOperation where
  type : UndoOpType
  beforeLines : List (List Char)
  afterLines : List (List Char)
  beforeCursorLine : Int
  beforeCursorCol : Int
  afterCursorLine : Int
  afterCursorCol : Int
deriving DecidableEq, Repr

structure UndoState where
  undoStack : List UndoOperation
  redoStack : List UndoOperation
deriving DecidableEq, Repr

def createUndoState : UndoState :=
  { undoStack := [], redoStack := [] }

/-- `pushUndoOperation`: append, then `shift()` (drop the first = oldest
entry) once if the stack exceeded the capacity; the redo stack is replaced
by the empty array. -/
def pushUndoOperation (undoState : UndoState) (operation : UndoOperation) : UndoState :=
  let undoStack := undoState.undoStack ++ [operation]
  let undoStack := if undoStack.length > MAX_UNDO_STACK_SIZE then undoStack.drop 1 else undoStack
  { undoStack := undoStack, redoStack := [] }

def canUndo (undoState : UndoState) : Bool :=
  undoState.undoStack.length > 0

def canRedo (undoState : UndoState) : Bool :=
  undoState.redoStack.length > 0

/-- `performUndo`: `pop()` on a copy of the undo stack is modelled as
`getLast?`/`dropLast`; the `if (!operation)` guard corresponds to the
`none` branch. -/
def performUndo (editorState : EditorState) (undoState : UndoState) :
    EditorState × UndoState :=
  if ¬ canUndo undoState then (editorState, undoState)
  else
    match undoState.undoStack.getLast? with
    | none => (editorState, undoState)
    | some operation =>
      let undoStack := undoState.undoStack.dropLast
      let inverseOperation : UndoOperation :=
        { type := operation.type
          beforeLines := operation.afterLines
          afterLines := operation.beforeLines
          beforeCursorLine := operation.afterCursorLine
          beforeCursorCol := operation.afterCursorCol
          afterCursorLine := operation.beforeCursorLine
          afterCursorCol := operation.beforeCursorCol }
      let newEditorState : EditorState :=
        { editorState with
            lines := operation.beforeLines
            cursorLine := operation.beforeCursorLine
            cursorCol := operation.beforeCursorCol
            isDirty := true }
      let redoStack := undoState.redoStack ++ [inverseOperation]
      (newEditorState, { undoStack := undoStack, redoStack := redoStack })

def performRedo (editorState : EditorState) (undoState : UndoState) :
    EditorState × UndoState :=
  if ¬ canRedo undoState then (editorState, undoState)
  else
    match undoState.redoStack.getLast? with
    | none => (editorState, undoState)
    | some operation =>
      let redoStack := undoState.redoStack.dropLast
      let inverseOperation : UndoOperation :=
        { type := operation.type
          beforeLines := operation.afterLines
          afterLines := operation.beforeLines
          beforeCursorLine := operation.afterCursorLine
          beforeCursorCol := operation.afterCursorCol
          afterCursorLine := operation.beforeCursorLine
          afterCursorCol := operation.beforeCursorCol }
      let newEditorState : EditorState :=
        { editorState with
            lines := operation.afterLines
            cursorLine := operation.afterCursorLine
            cursorCol := operation.afterCursorCol
            isDirty := true }
      let undoStack := undoState.undoStack ++ [inverseOperation]
      (newEditorState, { undoStack := undoStack, redoStack := redoStack })

def createUndoOperation (type : UndoOpType) (beforeState afterState : EditorState) :
    UndoOperation :=
  { type := type
    beforeLines := beforeState.lines
    afterLines := afterState.lines
    beforeCursorLine := beforeState.cursorLine
    beforeCursorCol := beforeState.cursorCol
    afterCursorLine := afterState.cursorLine
    afterCursorCol := afterState.cursorCol }

/-! ## `editor-readonly.ts`

The two probing functions perform asynchronous I/O on the file named by
the path.  The I/O boundary is modelled by a parameter `fs`: `none` when
touching the file raises an I/O error (both probes run in `try`/`catch`
blocks over the same file and fail together), `some bytes` when the file
is readable with content `bytes` (so `Bun.file(path).size = bytes.length`). -/

def MAX_FILE_SIZE_BYTES : Nat := 1024 * 1024

def BINARY_CHECK_BYTES : Nat := 8192

structure ReadOnlyCheckResult where
  isReadOnly : Bool
  reason : Option ReadOnlyReason
deriving DecidableEq, Repr

def isInNodeModules (filePath : List Char) : Bool :=
  jsIncludes filePath "/node_modules/".toList ∨ jsIncludes filePath "\\node_modules\\".toList

def isInGitDirectory (filePath : List Char) : Bool :=
  jsIncludes filePath "/.git/".toList ∨ jsIncludes filePath "\\.git\\".toList

def isFileTooLarge (fs : Option (List Nat)) : Bool :=
  match fs with
  | none => false
  | some bytes => bytes.length > MAX_FILE_SIZE_BYTES

def isBinaryFile (fs : Option (List Nat)) : Bool :=
  match fs with
  | none => false
  | some bytes =>
    let bytesToRead := min bytes.length BINARY_CHECK_BYTES
    if bytesToRead = 0 then false
    else (bytes.take bytesToRead).any (fun byte => byte = 0)

def checkReadOnly (filePath : List Char) (fs : Option (List Nat)) : ReadOnlyCheckResult :=
  if isInNodeModules filePath then { isReadOnly := true, reason := some .node_modules }
  else if isInGitDirectory filePath then { isReadOnly := true, reason := some .git_directory }
  else if isFileTooLarge fs then { isReadOnly := true, reason := some .file_too_large }
  else if isBinaryFile fs then { isReadOnly := true, reason := some .binary_file }
  else { isReadOnly := false, reason := none }

/-! ## Mutation steps

One constructor per mutation entry point of the Mutation Engine, with the
arguments a caller may pass (the character typed, the clipboard in use);
`deleteLine` returns a pair and the editor continues with its editor-state
component. -/

inductive MutStep
  | insertCharStep (char : List Char)
  | deleteCharBeforeStep
  | insertNewLineStep
  | deleteCharUnderCursorStep
  | openLineBelowStep
  | openLineAboveStep
  | deleteLineStep (cb : ClipboardState)
  | pasteAfterStep (cb : ClipboardState)
  | pasteBeforeStep (cb : ClipboardState)
deriving DecidableEq, Repr

def applyMut (s : EditorState) : MutStep → EditorState
  | .insertCharStep char => insertChar s char
  | .deleteCharBeforeStep => deleteCharBefore s
  | .insertNewLineStep => insertNewLine s
  | .deleteCharUnderCursorStep => deleteCharUnderCursor s
  | .openLineBelowStep => openLineBelow s
  | .openLineAboveStep => openLineAbove s
  | .deleteLineStep cb => (deleteLine s cb).1
  | .pasteAfterStep cb => pasteAfter s cb
  | .pasteBeforeStep cb => pasteBefore s cb

def applyMuts (init : EditorState) (steps : List MutStep) : EditorState :=
  steps.foldl applyMut init

/-! ## Concrete example states used by closed theorems and witnesses -/

def exampleNavA : EditorState :=
  { mode := .normal, lines := ["ab".toList, "cd".toList], cursorLine := 0, cursorCol := 1,
    isDirty := false, dirtyLines := [], filePath := none, isReadOnly := false,
    isReadOnlyReason := none }

def exampleNavB : EditorState :=
  { exampleNavA with lines := ["ab".toList] }

def exampleNavC : EditorState :=
  { exampleNavA with lines := ["ab cd".toList], cursorCol := 0 }

def exampleBeforeState : EditorState :=
  { mode := .insert, lines := ["ab".toList], cursorLine := 0, cursorCol := 2,
    isDirty := false, dirtyLines := [], filePath := none, isReadOnly := false,
    isReadOnlyReason := none }

def exampleAfterState : EditorState :=
  insertChar exampleBeforeState "c".toList

def exampleReadOnlyState : EditorState :=
  { mode := .normal, lines := ["a".toList], cursorLine := 0, cursorCol := 0,
    isDirty := false, dirtyLines := [], filePath := none, isReadOnly := true,
    isReadOnlyReason := some .node_modules }

def exampleDummyOp : UndoOperation :=
  { type := .insert_char, beforeLines := [], afterLines := [],
    beforeCursorLine := 0, beforeCursorCol := 0,
    afterCursorLine := 0, afterCursorCol := 0 }

def exampleOverfullLog : UndoState :=
  { undoStack := List.replicate 101 exampleDummyOp, redoStack := [exampleDummyOp] }

/-! ## Theorems -/

theorem pushUndoOperation_eq (U : UndoState) (op : UndoOperation) :
    pushUndoOperation U op =
      { undoStack :=
          if (U.undoStack ++ [op]).length > MAX_UNDO_STACK_SIZE
          then (U.undoStack ++ [op]).drop 1 else U.undoStack ++ [op],
        redoStack := [] } := rfl

theorem pushUndoOperation_getLast (U : UndoState) (op : UndoOperation) :
    (pushUndoOperation U op).undoStack.getLast? = some op := by
  rw [pushUndoOperation_eq]
  dsimp only
  split
  · next h =>
    cases hU : U.undoStack with
    | nil => rw [hU] at h; simp [MAX_UNDO_STACK_SIZE] at h
    | cons a l => simp
  · simp

theorem pushUndoOperation_length_pos (U : UndoState) (op : UndoOperation) :
    0 < (pushUndoOperation U op).undoStack.length := by
  rw [pushUndoOperation_eq]
  dsimp only
  split
  · next h =>
    simp only [List.length_drop, List.length_append, List.length_cons, List.length_nil,
      MAX_UNDO_STACK_SIZE] at h ⊢
    omega
  · simp

theorem performUndo_push (Sm : EditorState) (U : UndoState) (op : UndoOperation) :
    (performUndo Sm (pushUndoOperation U op)).1 =
      { Sm with lines := op.beforeLines, cursorLine := op.beforeCursorLine,
                cursorCol := op.beforeCursorCol, isDirty := true } := by
  have h1 := pushUndoOperation_getLast U op
  have h2 := pushUndoOperation_length_pos U op
  have hcan : canUndo (pushUndoOperation U op) = true := by
    simp [canUndo]; exact h2
  simp only [performUndo, hcan, h1]
  simp

/-- Auxiliary: joining undoes splitting. -/
theorem joinNl_splitNl (s : List Char) : joinNl (splitNl s) = s := by
  induction s with
  | nil => rfl
  | cons c cs ih =>
    by_cases h : c = '\n'
    · subst h
      simp only [splitNl]
      have hne : splitNl cs ≠ [] := by
        cases cs with
        | nil => simp [splitNl]
        | cons d ds =>
          simp only [splitNl]
          split
          · simp
          · cases hr : splitNl ds <;> simp
      cases hr : splitNl cs with
      | nil => exact absurd hr hne
      | cons h t =>
        simp only [if_pos rfl, joinNl]
        rw [hr] at ih
        simpa [joinNl] using ih
    · simp only [splitNl, if_neg h]
      cases hr : splitNl cs with
      | nil =>
        exfalso
        cases cs with
        | nil => simp [splitNl] at hr
        | cons d ds =>
          simp only [splitNl] at hr
          revert hr
          split
          · simp
          · cases splitNl ds <;> simp
      | cons h t =>
        rw [hr] at ih
        cases t with
        | nil => simpa [joinNl] using ih
        | cons t0 ts => simpa [joinNl] using ih

/-- C10: for every string `s`, `getEditorContent (createEditorState {content := s})`
equals `s`: splitting on `"\n"` at construction and joining with `"\n"` at
serialization round-trips every input, including the empty string (whose
construction yields a single empty line). -/
theorem editor_content_roundtrip (s : List Char) :
    getEditorContent (createEditorState { content := some s }) = s ∧
    (createEditorState { content := some [] }).lines = [[]] := by
  constructor
  · have hne : (splitNl s).length ≠ 0 := by
      cases s with
      | nil => simp [splitNl]
      | cons c cs =>
        simp only [splitNl]
        split
        · simp
        · cases splitNl cs <;> simp
    simp only [createEditorState, getEditorContent, Option.getD_some, if_neg hne]
    exact joinNl_splitNl s
  · rfl

/-- C1: the claimed undo/redo inverse law fails in the code.  After the
single mutation `insertChar` takes `exampleBeforeState` (lines `["ab"]`,
cursor `(0,2)`) to `exampleAfterState` (lines `["abc"]`, cursor `(0,3)`)
and the operation is pushed, `performUndo` correctly restores `["ab"]`,
but `performRedo` then yields `["ab"]` with cursor `(0,2)` again instead
of `["abc"]`: `performUndo` pushes a before/after-swapped record onto the
redo stack while `performRedo` applies the `after` fields of the popped
record, so redo re-applies the undo instead of the mutation. -/
theorem redo_after_undo_returns_premutation_state :
    exampleAfterState.lines = ["abc".toList] ∧
    exampleAfterState.cursorCol = 3 ∧
    (performUndo exampleAfterState
        (pushUndoOperation createUndoState
          (createUndoOperation .insert_char exampleBeforeState exampleAfterState))).1.lines
      = ["ab".toList] ∧
    (performRedo
        (performUndo exampleAfterState
          (pushUndoOperation createUndoState
            (createUndoOperation .insert_char exampleBeforeState exampleAfterState))).1
        (performUndo exampleAfterState
          (pushUndoOperation createUndoState
            (createUndoOperation .insert_char exampleBeforeState exampleAfterState))).2).1.lines
      = ["ab".toList] ∧
    (performRedo
        (performUndo exampleAfterState
          (pushUndoOperation createUndoState
            (createUndoOperation .insert_char exampleBeforeState exampleAfterState))).1
        (performUndo exampleAfterState
          (pushUndoOperation createUndoState
            (createUndoOperation .insert_char exampleBeforeState exampleAfterState))).2).1.cursorCol
      = 2 ∧
    (performRedo
        (performUndo exampleAfterState
          (pushUndoOperation createUndoState
            (createUndoOperation .insert_char exampleBeforeState exampleAfterState))).1
        (performUndo exampleAfterState
          (pushUndoOperation createUndoState
            (createUndoOperation .insert_char exampleBeforeState exampleAfterState))).2).1.lines
      ≠ exampleAfterState.lines := by decide

/-- C2: after a single mutation takes `S` to `Sm` and the operation
`createUndoOperation ty S Sm` is pushed, `performUndo` on `Sm` yields a
state equal to `S` in `lines`, `cursorLine` and `cursorCol`; and
`performUndo` is a no-op when the undo stack is empty. -/
theorem undo_restores_before_snapshot_and_empty_stack_noop :
    (∀ (S Sm : EditorState) (U : UndoState) (ty : UndoOpType),
      (performUndo Sm (pushUndoOperation U (createUndoOperation ty S Sm))).1.lines = S.lines ∧
      (performUndo Sm (pushUndoOperation U (createUndoOperation ty S Sm))).1.cursorLine
        = S.cursorLine ∧
      (performUndo Sm (pushUndoOperation U (createUndoOperation ty S Sm))).1.cursorCol
        = S.cursorCol) ∧
    (∀ (S : EditorState) (redo : List UndoOperation),
      performUndo S { undoStack := [], redoStack := redo }
        = (S, { undoStack := [], redoStack := redo })) := by
  constructor
  · intro S Sm U ty
    rw [performUndo_push]
    exact ⟨rfl, rfl, rfl⟩
  · intro S redo
    simp [performUndo, canUndo]

/-- C3: every mutation function (`insertChar`, `deleteCharBefore`,
`insertNewLine`, `deleteCharUnderCursor`, `openLineBelow`, `openLineAbove`,
`deleteLine`, `pasteAfter`, `pasteBefore`) returns its input unchanged in
every field on a read-only state, raising no error. -/
theorem readonly_mutations_are_noops (S : EditorState) (ch : List Char)
    (cb : ClipboardState) (h : S.isReadOnly = true) :
    insertChar S ch = S ∧
    deleteCharBefore S = S ∧
    insertNewLine S = S ∧
    deleteCharUnderCursor S = S ∧
    openLineBelow S = S ∧
    openLineAbove S = S ∧
    deleteLine S cb = (S, cb) ∧
    pasteAfter S cb = S ∧
    pasteBefore S cb = S := by
  refine ⟨?_, ?_, ?_, ?_, ?_, ?_, ?_, ?_, ?_⟩ <;>
    simp [insertChar, deleteCharBefore, insertNewLine, deleteCharUnderCursor,
      openLineBelow, openLineAbove, deleteLine, pasteAfter, pasteBefore, h]

theorem readonly_mutations_are_noops_witness :
    exampleReadOnlyState.isReadOnly = true ∧
    insertChar exampleReadOnlyState "x".toList = exampleReadOnlyState ∧
    deleteLine exampleReadOnlyState createClipboardState
      = (exampleReadOnlyState, createClipboardState) :=
  ⟨rfl,
   (readonly_mutations_are_noops exampleReadOnlyState "x".toList createClipboardState rfl).1,
   (readonly_mutations_are_noops exampleReadOnlyState "x".toList
     createClipboardState rfl).2.2.2.2.2.2.1⟩

/-- C5: the claimed cursor invariant fails in the code.  From the freshly
created editor state for content `"\n a"` (lines `["", " a"]`, normal
mode), the navigation sequence `moveDown`, `moveToLineEnd`,
`moveToPreviousWord` reaches a state with `cursorCol = -1`: the backward
word motion steps to the empty previous line and computes
`skipWhitespaceBackward("", -1)`, so `0 ≤ cursorCol` (and hence the
normal-mode column ceiling `0 ≤ col ≤ max(0, len-1)`) is violated in a
reachable state. -/
theorem moveToPreviousWord_reaches_negative_column :
    (createEditorState { content := some "\n a".toList }).lines
      = [[], " a".toList] ∧
    (moveToLineEnd (moveDown (createEditorState { content := some "\n a".toList }))).cursorLine
      = 1 ∧
    (moveToLineEnd (moveDown (createEditorState { content := some "\n a".toList }))).cursorCol
      = 1 ∧
    (moveToPreviousWord (moveToLineEnd (moveDown
        (createEditorState { content := some "\n a".toList })))).mode = .normal ∧
    (moveToPreviousWord (moveToLineEnd (moveDown
        (createEditorState { content := some "\n a".toList })))).cursorLine = 0 ∧
    (moveToPreviousWord (moveToLineEnd (moveDown
        (createEditorState { content := some "\n a".toList })))).cursorCol = -1 ∧
    ¬ (0 ≤ (moveToPreviousWord (moveToLineEnd (moveDown
        (createEditorState { content := some "\n a".toList })))).cursorCol) := by decide

/-- C7: `checkReadOnly` evaluates its rules in the fixed order
(dependency-directory segment, version-control segment, size above 1 MiB,
NUL byte in the first 8 KiB) and returns the reason of the first matching
rule; when no rule matches, and in particular when the file probe raises
an I/O error (`fs = none`, both probing functions catch and return
`false`), it returns not read-only with reason `none` (fail-open). -/
theorem checkReadOnly_rule_order_and_fail_open (path : List Char) (fs : Option (List Nat)) :
    (isInNodeModules path = true →
      checkReadOnly path fs = { isReadOnly := true, reason := some .node_modules }) ∧
    (isInNodeModules path = false → isInGitDirectory path = true →
      checkReadOnly path fs = { isReadOnly := true, reason := some .git_directory }) ∧
    (isInNodeModules path = false → isInGitDirectory path = false →
      isFileTooLarge fs = true →
      checkReadOnly path fs = { isReadOnly := true, reason := some .file_too_large }) ∧
    (isInNodeModules path = false → isInGitDirectory path = false →
      isFileTooLarge fs = false → isBinaryFile fs = true →
      checkReadOnly path fs = { isReadOnly := true, reason := some .binary_file }) ∧
    (isInNodeModules path = false → isInGitDirectory path = false →
      isFileTooLarge fs = false → isBinaryFile fs = false →
      checkReadOnly path fs = { isReadOnly := false, reason := none }) ∧
    (fs = none → isInNodeModules path = false → isInGitDirectory path = false →
      checkReadOnly path fs = { isReadOnly := false, reason := none }) := by
  refine ⟨?_, ?_, ?_, ?_, ?_, ?_⟩
  · intro h1; simp [checkReadOnly, h1]
  · intro h1 h2; simp [checkReadOnly, h1, h2]
  · intro h1 h2 h3; simp [checkReadOnly, h1, h2, h3]
  · intro h1 h2 h3 h4; simp [checkReadOnly, h1, h2, h3, h4]
  · intro h1 h2 h3 h4; simp [checkReadOnly, h1, h2, h3, h4]
  · intro hfs h1 h2; subst hfs; simp [checkReadOnly, h1, h2, isFileTooLarge, isBinaryFile]

theorem checkReadOnly_rule_order_and_fail_open_witness :
    checkReadOnly "/a/node_modules/b.ts".toList none
      = { isReadOnly := true, reason := some .node_modules } ∧
    checkReadOnly "/a/b.txt".toList none
      = { isReadOnly := false, reason := none } ∧
    checkReadOnly "/a/b.bin".toList (some [65, 0, 66])
      = { isReadOnly := true, reason := some .binary_file } :=
  ⟨(checkReadOnly_rule_order_and_fail_open "/a/node_modules/b.ts".toList none).1 (by decide),
   (checkReadOnly_rule_order_and_fail_open "/a/b.txt".toList none).2.2.2.2.2
     rfl (by decide) (by decide),
   (checkReadOnly_rule_order_and_fail_open "/a/b.bin".toList (some [65, 0, 66])).2.2.2.1
     (by decide) (by decide) (by decide) (by decide)⟩

/-- C8: `parseCommand` trims its input and returns the save intent for
`":w"`, the quit intent for `":q"`, one and the same save-quit intent for
both `":wq"` and `":x"`, the force-quit intent for `":q!"`, and for any
other input the unknown intent carrying the trimmed input string (so
`":zzz"` yields `unknown ":zzz"`). -/
theorem parseCommand_intents :
    parseCommand ":w".toList = .save ∧
    parseCommand ":q".toList = .quit ∧
    parseCommand ":wq".toList = .save_quit ∧
    parseCommand ":x".toList = .save_quit ∧
    parseCommand ":q!".toList = .force_quit ∧
    parseCommand "  :w\t".toList = .save ∧
    parseCommand ":zzz".toList = .unknown (":zzz".toList) ∧
    (∀ s : List Char,
      jsTrim s ≠ ":w".toList → jsTrim s ≠ ":q".toList → jsTrim s ≠ ":wq".toList →
      jsTrim s ≠ ":x".toList → jsTrim s ≠ ":q!".toList →
      parseCommand s = .unknown (jsTrim s)) := by
  refine ⟨by decide, by decide, by decide, by decide, by decide, by decide, by decide, ?_⟩
  intro s h1 h2 h3 h4 h5
  have h1' : jsTrim s ≠ [':', 'w'] := h1
  have h2' : jsTrim s ≠ [':', 'q'] := h2
  have h3' : jsTrim s ≠ [':', 'w', 'q'] := h3
  have h4' : jsTrim s ≠ [':', 'x'] := h4
  have h5' : jsTrim s ≠ [':', 'q', '!'] := h5
  simp [parseCommand, h1', h2', h3', h4', h5']

theorem parseCommand_intents_witness :
    parseCommand " :zz ".toList = .unknown (jsTrim " :zz ".toList) :=
  parseCommand_intents.2.2.2.2.2.2.2 (" :zz ".toList)
    (by decide) (by decide) (by decide) (by decide) (by decide)

/-- C4 counterexample: quantified over *every* undo/redo log, the claim
fails: on a log that already holds 101 entries, `pushUndoOperation` evicts
only one entry, leaving 101 > 100 in the undo stack. -/
theorem push_on_overfull_log_exceeds_capacity :
    exampleOverfullLog.undoStack.length = 101 ∧
    (pushUndoOperation exampleOverfullLog exampleDummyOp).undoStack.length = 101 ∧
    ¬ ((pushUndoOperation exampleOverfullLog exampleDummyOp).undoStack.length ≤ 100) := by
  decide

theorem foldl_push_undoStack (ops : List UndoOperation) :
    (ops.foldl pushUndoOperation createUndoState).undoStack
      = ops.drop (ops.length - MAX_UNDO_STACK_SIZE) := by
  induction ops using List.reverseRecOn with
  | nil => rfl
  | append_singleton l a ih =>
    rw [List.foldl_append, List.foldl_cons, List.foldl_nil, pushUndoOperation_eq]
    dsimp only
    rw [ih]
    have hS : (l.drop (l.length - MAX_UNDO_STACK_SIZE)).length
        = l.length - (l.length - MAX_UNDO_STACK_SIZE) := List.length_drop _ _
    by_cases hl : l.length < MAX_UNDO_STACK_SIZE
    · rw [if_neg]
      · have h0 : l.length - MAX_UNDO_STACK_SIZE = 0 := by omega
        have h1 : (l ++ [a]).length - MAX_UNDO_STACK_SIZE = 0 := by
          simp only [List.length_append, List.length_cons, List.length_nil]; omega
        rw [h0, h1, List.drop_zero, List.drop_zero]
      · simp only [List.length_append, List.length_cons, List.length_nil, hS]
        omega
    · rw [if_pos]
      · rw [List.drop_append_eq_append_drop, List.drop_drop,
            List.drop_append_eq_append_drop]
        have e1 : 1 - (l.drop (l.length - MAX_UNDO_STACK_SIZE)).length = 0 := by
          rw [hS]; simp only [MAX_UNDO_STACK_SIZE] at hl ⊢; omega
        have e2 : (l ++ [a]).length - MAX_UNDO_STACK_SIZE - l.length = 0 := by
          simp only [List.length_append, List.length_cons, List.length_nil,
            MAX_UNDO_STACK_SIZE] at hl ⊢
          omega
        have e3 : l.length - MAX_UNDO_STACK_SIZE + 1
            = (l ++ [a]).length - MAX_UNDO_STACK_SIZE := by
          simp only [List.length_append, List.length_cons, List.length_nil,
            MAX_UNDO_STACK_SIZE] at hl ⊢
          omega
        rw [e1, e2, e3, List.drop_zero]
      · simp only [List.length_append, List.length_cons, List.length_nil, hS]
        simp only [MAX_UNDO_STACK_SIZE] at hl ⊢
        omega

/-- C4 (amended): for every undo/redo log whose undo stack holds at most
100 entries (as every log built by the API does) and every operation,
`pushUndoOperation` returns a log whose redo stack is empty (even if the
redo stack was non-empty before) and whose undo stack has at most 100
entries, evicting the oldest entry from the bottom exactly when the bound
is exceeded; in particular pushing 101 operations starting from the empty
log leaves exactly 100 in the undo stack with the oldest evicted. -/
theorem push_capacity_and_redo_clear (U : UndoState) (op : UndoOperation)
    (h : U.undoStack.length ≤ MAX_UNDO_STACK_SIZE) :
    (pushUndoOperation U op).redoStack = [] ∧
    (pushUndoOperation U op).undoStack.length ≤ MAX_UNDO_STACK_SIZE ∧
    (U.undoStack.length < MAX_UNDO_STACK_SIZE →
      (pushUndoOperation U op).undoStack = U.undoStack ++ [op]) ∧
    (U.undoStack.length = MAX_UNDO_STACK_SIZE →
      (pushUndoOperation U op).undoStack = U.undoStack.drop 1 ++ [op]) ∧
    (∀ ops : List UndoOperation, ops.length = 101 →
      (ops.foldl pushUndoOperation createUndoState).undoStack = ops.drop 1 ∧
      (ops.foldl pushUndoOperation createUndoState).undoStack.length = 100) := by
  refine ⟨rfl, ?_, ?_, ?_, ?_⟩
  · rw [pushUndoOperation_eq]
    dsimp only
    split
    · next hc =>
      simp only [List.length_drop, List.length_append, List.length_cons,
        List.length_nil] at hc ⊢
      omega
    · next hc =>
      simp only [List.length_append, List.length_cons, List.length_nil] at hc ⊢
      omega
  · intro hlt
    rw [pushUndoOperation_eq]
    dsimp only
    rw [if_neg]
    simp only [List.length_append, List.length_cons, List.length_nil]
    omega
  · intro heq
    rw [pushUndoOperation_eq]
    dsimp only
    rw [if_pos]
    · rw [List.drop_append_eq_append_drop]
      have e1 : 1 - U.undoStack.length = 0 := by
        simp only [MAX_UNDO_STACK_SIZE] at heq; omega
      rw [e1, List.drop_zero]
    · simp only [List.length_append, List.length_cons, List.length_nil,
        MAX_UNDO_STACK_SIZE] at heq ⊢
      omega
  · intro ops hops
    have hstack := foldl_push_undoStack ops
    rw [hops] at hstack
    have h1 : 101 - MAX_UNDO_STACK_SIZE = 1 := by simp [MAX_UNDO_STACK_SIZE]
    rw [h1] at hstack
    refine ⟨hstack, ?_⟩
    rw [hstack, List.length_drop, hops]

theorem push_capacity_and_redo_clear_witness :
    (pushUndoOperation createUndoState exampleDummyOp).redoStack = [] ∧
    ((List.replicate 101 exampleDummyOp).foldl pushUndoOperation createUndoState).undoStack.length
      = 100 :=
  ⟨(push_capacity_and_redo_clear createUndoState exampleDummyOp (by decide)).1,
   ((push_capacity_and_redo_clear createUndoState exampleDummyOp (by decide)).2.2.2.2
     (List.replicate 101 exampleDummyOp) (by simp)).2⟩

theorem jsNormIdx_le (n : Nat) (i : Int) : jsNormIdx n i ≤ n := by
  unfold jsNormIdx
  split <;> omega

theorem jsSet_length_ge (l : List (List Char)) (i : Int) (x : List Char) :
    l.length ≤ (jsSet l i x).length := by
  unfold jsSet
  split
  · exact le_refl _
  · split
    · rw [List.length_set]
    · simp only [List.length_append, List.length_replicate, List.length_cons,
        List.length_nil]
      omega

theorem jsSplice_length_ge_items (l : List (List Char)) (start : Int)
    (deleteCount : Nat) (items : List (List Char)) :
    items.length ≤ (jsSplice l start deleteCount items).length := by
  simp only [jsSplice, List.length_append]
  omega

theorem jsSplice_zero_dc_length (l : List (List Char)) (start : Int)
    (items : List (List Char)) :
    (jsSplice l start 0 items).length = l.length + items.length := by
  have h := jsNormIdx_le l.length start
  simp only [jsSplice, List.length_append, List.length_take, List.length_drop,
    Nat.add_zero]
  omega

theorem applyMut_lines_len (s : EditorState) (m : MutStep)
    (h : 1 ≤ s.lines.length) : 1 ≤ (applyMut s m).lines.length := by
  cases m with
  | insertCharStep char =>
    simp only [applyMut, insertChar]
    split
    · exact h
    · exact le_trans h (jsSet_length_ge _ _ _)
  | deleteCharBeforeStep =>
    simp only [applyMut, deleteCharBefore]
    split
    · exact h
    · split
      · split
        · exact h
        · refine le_trans ?_ (jsSplice_length_ge_items _ _ 2 _)
          simp
      · exact le_trans h (jsSet_length_ge _ _ _)
  | insertNewLineStep =>
    simp only [applyMut, insertNewLine]
    split
    · exact h
    · refine le_trans ?_ (jsSplice_length_ge_items _ _ 1 _)
      simp
  | deleteCharUnderCursorStep =>
    simp only [applyMut, deleteCharUnderCursor]
    split
    · exact h
    · split
      · exact h
      · split
        · exact h
        · exact le_trans h (jsSet_length_ge _ _ _)
  | openLineBelowStep =>
    simp only [applyMut, openLineBelow]
    split
    · exact h
    · refine le_trans ?_ (jsSplice_length_ge_items _ _ 0 _)
      simp
  | openLineAboveStep =>
    simp only [applyMut, openLineAbove]
    split
    · exact h
    · refine le_trans ?_ (jsSplice_length_ge_items _ _ 0 _)
      simp
  | deleteLineStep cb =>
    simp only [applyMut, deleteLine]
    split
    · exact h
    · dsimp only
      split
      · next heq =>
        simp only [List.length_append, List.length_cons, List.length_nil]
        omega
      · next heq => omega
  | pasteAfterStep cb =>
    simp only [applyMut, pasteAfter]
    split
    · exact h
    · split
      · exact h
      · split
        · exact h
        · dsimp only
          rw [jsSplice_zero_dc_length]
          omega
  | pasteBeforeStep cb =>
    simp only [applyMut, pasteBefore]
    split
    · exact h
    · split
      · exact h
      · split
        · exact h
        · dsimp only
          rw [jsSplice_zero_dc_length]
          omega

/-- C6: from every initial state with at least one line, every sequence of
mutation calls (`insertChar`, `deleteCharBefore`, `insertNewLine`,
`deleteCharUnderCursor`, `openLineBelow`, `openLineAbove`, `deleteLine`,
`pasteAfter`, `pasteBefore`) keeps the lines array at length ≥ 1; and
`deleteLine` on a one-line buffer (with a valid cursor, not read-only)
reinserts a single empty line and clamps the cursor to line 0, column 0. -/
theorem mutation_sequences_preserve_nonempty_buffer (init : EditorState)
    (steps : List MutStep) (h : 1 ≤ init.lines.length) :
    1 ≤ (applyMuts init steps).lines.length ∧
    (∀ (s : EditorState) (cb : ClipboardState),
      s.isReadOnly = false → s.lines.length = 1 → s.cursorLine = 0 → 0 ≤ s.cursorCol →
      (deleteLine s cb).1.lines = [[]] ∧
      (deleteLine s cb).1.cursorLine = 0 ∧
      (deleteLine s cb).1.cursorCol = 0) := by
  constructor
  · induction steps generalizing init with
    | nil => simpa [applyMuts] using h
    | cons m rest ih =>
      have h1 := applyMut_lines_len init m h
      simpa [applyMuts] using ih (applyMut init m) h1
  · intro s cb hro hlen hline hcol
    obtain ⟨x, hx⟩ : ∃ x, s.lines = [x] := by
      cases hl : s.lines with
      | nil => rw [hl] at hlen; simp at hlen
      | cons a t =>
        cases t with
        | nil => exact ⟨a, rfl⟩
        | cons b u => rw [hl] at hlen; simp at hlen
    have hsplice : jsSplice s.lines s.cursorLine 1 [] = [] := by
      rw [hx, hline]
      simp [jsSplice, jsNormIdx]
    unfold deleteLine
    rw [if_neg (by simp [hro])]
    simp only [hsplice]
    have hmin : min s.cursorCol (max 0 (((0 : Nat) : Int) - 1)) = 0 := by omega
    refine ⟨?_, ?_, ?_⟩
    · simp
    · simp [hline]
    · simp only [List.length_nil, List.length_append, List.length_cons,
        if_pos rfl, List.nil_append, jsGetD, jsGet, hline]
      simp [hmin]
      omega

theorem mutation_sequences_preserve_nonempty_buffer_witness :
    1 ≤ (applyMuts (createEditorState { content := some "a".toList })
        [.deleteLineStep createClipboardState, .insertNewLineStep]).lines.length ∧
    (deleteLine (createEditorState { content := some "abc".toList })
        createClipboardState).1.lines = [[]] :=
  ⟨(mutation_sequences_preserve_nonempty_buffer
      (createEditorState { content := some "a".toList })
      [.deleteLineStep createClipboardState, .insertNewLineStep] (by decide)).1,
   ((mutation_sequences_preserve_nonempty_buffer
      (createEditorState { content := some "abc".toList }) [] (by decide)).2
      (createEditorState { content := some "abc".toList }) createClipboardState
      rfl (by decide) rfl (by decide)).1⟩

/-- C9: `moveToNextWord`, whenever the cursor is at or past the
second-to-last column of the current line, advances to the next line
skipping its leading whitespace (clamped to the mode ceiling) when a next
line exists, and otherwise clamps the cursor at line end; in all other
positions it skips the remainder of the current character-class token,
then skips trailing whitespace, crossing to the next line (again skipping
leading whitespace) if that lands past line end. -/
theorem moveToNextWord_cases (s : EditorState) :
    (s.cursorCol ≥ ((jsGetD s.lines s.cursorLine).length : Int) - 1 →
      (s.cursorLine < (s.lines.length : Int) - 1 →
        moveToNextWord s =
          { s with
              cursorLine := s.cursorLine + 1
              cursorCol := min (skipWhitespaceForward (jsGetD s.lines (s.cursorLine + 1)) 0)
                (getMaxColOf (jsGetD s.lines (s.cursorLine + 1)) s.mode) }) ∧
      (¬ s.cursorLine < (s.lines.length : Int) - 1 →
        moveToNextWord s =
          { s with cursorCol := getMaxColOf (jsGetD s.lines s.cursorLine) s.mode })) ∧
    (¬ (s.cursorCol ≥ ((jsGetD s.lines s.cursorLine).length : Int) - 1) →
      (skipWhitespaceForward (jsGetD s.lines s.cursorLine)
          (skipCurrentTokenForward (jsGetD s.lines s.cursorLine) s.cursorCol)
            ≥ ((jsGetD s.lines s.cursorLine).length : Int)
          ∧ s.cursorLine < (s.lines.length : Int) - 1 →
        moveToNextWord s =
          { s with
              cursorLine := s.cursorLine + 1
              cursorCol := min (skipWhitespaceForward (jsGetD s.lines (s.cursorLine + 1)) 0)
                (getMaxColOf (jsGetD s.lines (s.cursorLine + 1)) s.mode) }) ∧
      (¬ (skipWhitespaceForward (jsGetD s.lines s.cursorLine)
          (skipCurrentTokenForward (jsGetD s.lines s.cursorLine) s.cursorCol)
            ≥ ((jsGetD s.lines s.cursorLine).length : Int)
          ∧ s.cursorLine < (s.lines.length : Int) - 1) →
        moveToNextWord s =
          { s with
              cursorCol := min (skipWhitespaceForward (jsGetD s.lines s.cursorLine)
                  (skipCurrentTokenForward (jsGetD s.lines s.cursorLine) s.cursorCol))
                (getMaxColOf (jsGetD s.lines s.cursorLine) s.mode) })) := by
  refine ⟨fun h1 => ⟨fun h2 => ?_, fun h2 => ?_⟩, fun h1 => ⟨fun h2 => ?_, fun h2 => ?_⟩⟩
  · simp only [moveToNextWord]
    rw [if_pos h1, if_pos h2]
  · simp only [moveToNextWord]
    rw [if_pos h1, if_neg h2]
  · simp only [moveToNextWord]
    rw [if_neg h1, if_pos h2]
  · simp only [moveToNextWord]
    rw [if_neg h1, if_neg h2]

theorem moveToNextWord_cases_witness :
    moveToNextWord exampleNavA =
      { exampleNavA with
          cursorLine := exampleNavA.cursorLine + 1
          cursorCol := min
            (skipWhitespaceForward (jsGetD exampleNavA.lines (exampleNavA.cursorLine + 1)) 0)
            (getMaxColOf (jsGetD exampleNavA.lines (exampleNavA.cursorLine + 1))
              exampleNavA.mode) } ∧
    moveToNextWord exampleNavB =
      { exampleNavB with
          cursorCol := getMaxColOf (jsGetD exampleNavB.lines exampleNavB.cursorLine)
            exampleNavB.mode } ∧
    moveToNextWord exampleNavC =
      { exampleNavC with
          cursorCol := min
            (skipWhitespaceForward (jsGetD exampleNavC.lines exampleNavC.cursorLine)
              (skipCurrentTokenForward (jsGetD exampleNavC.lines exampleNavC.cursorLine)
                exampleNavC.cursorCol))
            (getMaxColOf (jsGetD exampleNavC.lines exampleNavC.cursorLine)
              exampleNavC.mode) } :=
  ⟨((moveToNextWord_cases exampleNavA).1 (by decide)).1 (by decide),
   ((moveToNextWord_cases exampleNavB).1 (by decide)).2 (by decide),
   ((moveToNextWord_cases exampleNavC).2 (by decide)).2 (by decide)⟩
